import Mathlib

/-!
Verification development for the `telegram_oil_bot` repository
(`src/botCom.py`, `src/catalog.py`).

The Python source is shallowly embedded: pure helpers become Lean
functions, the SQLite tables become explicit functional state, the
order-intake handler `_create_order_for_user` becomes a state-passing
function, and command dispatch (`main`) becomes a function from a
command and caller id to a reply and an updated store.
-/

namespace OilBot

/- ### Characters and whitespace

Python `\s` (and `str.strip()` with no argument) match ASCII whitespace;
we model the six ASCII whitespace characters. -/

def isPySpace (c : Char) : Bool :=
  c = ' ' || c = '\t' || c = '\n' || c = '\r' || c = '\x0b' || c = '\x0c'

/-- Models `str.strip()` on a character list: drop whitespace from both ends. -/
def stripChars (l : List Char) : List Char :=
  ((l.dropWhile isPySpace).reverse.dropWhile isPySpace).reverse

/-- Python `text.strip()`. -/
def pyStrip (s : String) : String :=
  ⟨stripChars s.toList⟩

/- ### Contact validation (`botCom.py` lines 224-246)

`PHONE_RE` is
`^\s*( \+?\d[\d\-\s\(\)]{8,}\d | @[A-Za-z0-9_]{5,} | https?://t\.me/[A-Za-z0-9_]+ )\s*$`.
Each alternative is embedded as a decidable predicate on the character
list between the surrounding whitespace. -/

/-- Character class `[\d\-\s\(\)]` of the phone alternative. -/
def inPhoneClass (c : Char) : Bool :=
  c.isDigit || c = '-' || isPySpace c || c = '(' || c = ')'

/-- Character class `[A-Za-z0-9_]` used by the handle and link alternatives. -/
def isWordChar (c : Char) : Bool :=
  c.isAlphanum || c = '_'

/-- Tests that an optional character is present and a digit. -/
def optDigit : Option Char → Bool
  | some c => c.isDigit
  | none => false

/-- The phone alternative `\+?\d[\d\-\s\(\)]{8,}\d`: after an optional
leading `+`, at least 10 characters, first and last a digit, all
characters between them in the phone class. -/
def phoneCore (cs : List Char) : Bool :=
  let ds := if cs.head? = some '+' then cs.tail else cs
  decide (10 ≤ ds.length) && optDigit ds.head? && optDigit ds.getLast? &&
    ((ds.drop 1).dropLast.all inPhoneClass)

/-- The handle alternative `@[A-Za-z0-9_]{5,}`. -/
def handleCore (cs : List Char) : Bool :=
  if cs.head? = some '@' then
    decide (5 ≤ cs.tail.length) && cs.tail.all isWordChar
  else false

/-- Helper for `tmeCore`: `cs` is `pre` followed by one or more word
characters. -/
def tmeTail (pre cs : List Char) : Bool :=
  pre.isPrefixOf cs && decide (pre.length < cs.length) &&
    (cs.drop pre.length).all isWordChar

/-- The link alternative `https?://t\.me/[A-Za-z0-9_]+` (note: the `s`
is optional, so `http://` links are also accepted). -/
def tmeCore (cs : List Char) : Bool :=
  tmeTail "http://t.me/".toList cs || tmeTail "https://t.me/".toList cs

/-- One of the three alternatives of `PHONE_RE`. -/
def contactCore (cs : List Char) : Bool :=
  phoneCore cs || handleCore cs || tmeCore cs

/-- Holds when `PHONE_RE.match(text)` succeeds: the whole text, between leading and
trailing whitespace, matches one of the three alternatives.  (Because
every alternative starts and ends with a non-whitespace character, the
`^\s*`/`\s*$` anchoring is equivalent to matching the both-ends-stripped
text; theorem `regexMatch_iff_pyMatch` below proves this.) -/
def pyMatch (s : String) : Bool :=
  contactCore (stripChars s.toList)

/-- User-visible bot replies; `text` below recovers the literal message
strings from the source where a claim needs them. -/
inductive Msg where
  | validationEmpty
  | validationBad
  | cooldown (remain : Int)
  | useCatalog
  | productGone
  | outOfStock
  | confirmed (code : String)
  | unknownCommand
  | adminsOnly
  | ordersNoAccess (uid : Int)
  | otherReply (tag : String)
deriving DecidableEq, Repr

/-- The literal reply texts from `botCom.py` (only the ones the claims
compare). -/
def Msg.text : Msg → String
  | .validationEmpty => "Пустой контакт. Укажите телефон или Telegram."
  | .validationBad =>
      "Некорректные контакты. Примеры:\n• +7 900 123-45-67\n• @username\n• https://t.me/username"
  | .cooldown remain => "⏳ Слишком часто. Повторите через " ++ toString remain ++ " сек."
  | .useCatalog => "Используйте /catalog чтобы выбрать масло."
  | .productGone => "Товар больше не доступен. Откройте /catalog и выберите заново."
  | .outOfStock => "К сожалению, товара нет в наличии. Попробуйте выбрать другой."
  | .confirmed code => "✅ Заявка " ++ code ++ " создана!"
  | .unknownCommand => "Я не знаю эту команду. Попробуйте /start или откройте каталог кнопкой."
  | .adminsOnly => "⛔ Команда доступна только администраторам."
  | .ordersNoAccess uid => "⛔ У вас нет доступа. Ваш ID: " ++ toString uid
  | .otherReply tag => tag

/-- Result of `validate_contact`: `(True, text.strip())` or
`(False, error_message)`. -/
inductive VResult where
  | ok (norm : String)
  | err (m : Msg)
deriving DecidableEq, Repr

/-- Embeds `validate_contact` (`botCom.py` lines 235-246). -/
def validate_contact (text : String) : VResult :=
  if text = "" then .err .validationEmpty
  else if pyMatch text then .ok (pyStrip text)
  else .err .validationBad

/- ### Static catalog (`catalog.py`)

Only the fields the order workflow reads are embedded; prices are
rendered as the decimal strings the ledger stores. -/

structure Product where
  name : String
  volume : String
  price : String
  currency : String
deriving DecidableEq, Repr

/-- The `oils` dict of `catalog.py`: seven products, ids 1-7. -/
def oils : Nat → Option Product
  | 1 => some ⟨"BYD EHSF-1, EHSF-2LV", "3 Л", "4400", "₽"⟩
  | 2 => some ⟨"BYD EHSF-1, EHSF-2LV", "1 Л", "1700", "₽"⟩
  | 3 => some ⟨"Масло редукторное BYD BOT384", "1 Л", "1400", "₽"⟩
  | 4 => some ⟨"Масло трансмиссионное Castrol D1 OEM", "1 Л", "2400", "₽"⟩
  | 5 => some ⟨"Масло трансмиссионное Castrol D2 OEM", "1 Л", "2400", "₽"⟩
  | 6 => some ⟨"Масло трансмиссионное FluidMatic LV MV X824 OEM", "1 Л", "2400", "₽"⟩
  | 7 => some ⟨"Масло трансмиссионное Castrol W2", "1 Л", "2400", "₽"⟩
  | _ => none

/- ### Price/stock overrides (`oil_overrides` table, `botCom.py` 250-308)

The table has primary key `oil_id` and nullable columns `price`, `stock`;
it is modelled as a function from id to an optional row. -/

structure OvRow where
  price : Option String
  stock : Option Int
deriving DecidableEq, Repr

def OvTable := Nat → Option OvRow

/-- Embeds `get_override` (lines 250-261): `(price, stock)` of the row, or
`(None, None)` when no row exists. -/
def get_override (t : OvTable) (oil_id : Nat) : Option String × Option Int :=
  match t oil_id with
  | none => (none, none)
  | some r => (r.price, r.stock)

/-- Embeds `upsert_price` (lines 264-279): insert-or-update setting `price`,
keeping the existing `stock` (the `SELECT stock ...` subquery yields
`NULL` when no row exists). -/
def upsert_price (t : OvTable) (oil_id : Nat) (price_text : Option String) : OvTable :=
  fun j => if j = oil_id then some ⟨price_text, (get_override t oil_id).2⟩ else t j

/-- Embeds `upsert_stock` (lines 281-295): insert-or-update setting `stock`,
keeping the existing `price`. -/
def upsert_stock (t : OvTable) (oil_id : Nat) (stock_value : Option Int) : OvTable :=
  fun j => if j = oil_id then some ⟨(get_override t oil_id).1, stock_value⟩ else t j

/-- A catalog product with overrides applied (`stock = none` means
unlimited). -/
structure EffOil where
  name : String
  volume : String
  price : String
  currency : String
  stock : Option Int
deriving DecidableEq, Repr

/-- Embeds `get_effective_oil` (lines 298-308): a copy of the static record,
price replaced by the override when it is present and not blank after
stripping, stock taken from the override row (`None` = unlimited). -/
def get_effective_oil (t : OvTable) (oil_id : Nat) : Option EffOil :=
  match oils oil_id with
  | none => none
  | some base =>
      let po := (get_override t oil_id).1
      let so := (get_override t oil_id).2
      some { name := base.name
             volume := base.volume
             price := match po with
               | some p => if pyStrip p ≠ "" then p else base.price
               | none => base.price
             currency := base.currency
             stock := so }

/- ### Order ledger (`orders` table, `botCom.py` 112-160) -/

/-- The seven columns an insert supplies. -/
structure OrderFields where
  user_id : Int
  username : Option String
  oil : String
  volume : String
  price : String
  currency : String
  contact : String
deriving DecidableEq, Repr

/-- A persisted row: insert-time fields plus the autoincrement id. -/
structure OrderRow where
  id : Nat
  fields : OrderFields
deriving DecidableEq, Repr

/-- The `orders` table: rows in insertion order and the autoincrement
counter (next id is `seq + 1`). -/
structure OrdersDB where
  rows : List OrderRow
  seq : Nat
deriving DecidableEq, Repr

def OrdersDB.empty : OrdersDB := ⟨[], 0⟩

/-- Formats the row id as the Python format spec 03d does: zero-pad to width 3. -/
def pad3 (n : Nat) : String :=
  if n < 10 then "00" ++ toString n
  else if n < 100 then "0" ++ toString n
  else toString n

/-- Embeds `save_order_sql` (lines 112-135): insert the row, return the code
`#NNN` built from the assigned id. -/
def save_order_sql (db : OrdersDB) (o : OrderFields) : String × OrdersDB :=
  let row_id := db.seq + 1
  ("#" ++ pad3 row_id, ⟨db.rows ++ [⟨row_id, o⟩], row_id⟩)

/-- Insertion into a list kept in descending id order (embeds
`ORDER BY id DESC`). -/
def insertDesc (r : OrderRow) : List OrderRow → List OrderRow
  | [] => [r]
  | x :: xs => if x.id ≤ r.id then r :: x :: xs else x :: insertDesc r xs

/-- The rows sorted by `id DESC`. -/
def sortDesc (l : List OrderRow) : List OrderRow :=
  l.foldr insertDesc []

/-- Embeds `fetch_orders_page` (lines 138-160): clamp the page to ≥ 1, count
all rows, and return the `LIMIT page_size OFFSET (page-1)*page_size`
window of the id-descending ordering, together with the total. -/
def fetch_orders_page (db : OrdersDB) (page : Int) (page_size : Nat) :
    List OrderRow × Nat :=
  let p := max 1 page
  let offset := ((p - 1).toNat) * page_size
  (((sortDesc db.rows).drop offset).take page_size, db.rows.length)

/-- Embeds `db_is_empty` (lines 163-173); the table always exists in the model. -/
def db_is_empty (db : OrdersDB) : Bool :=
  db.rows.length = 0

/- ### Legacy JSON migration (`migrate_json_to_sql`, lines 176-220)

`snapshot = none` models a missing `orders.json` or one whose contents
fail to parse as JSON or are not a list; an element `none` of the
snapshot models a record whose insert raises and is skipped with a
warning. -/

structure MigState where
  db : OrdersDB
  snapshot : Option (List (Option OrderFields))
deriving DecidableEq, Repr

/-- Embeds `migrate_json_to_sql`: no-op when the snapshot is absent, the ledger
is non-empty, or the parsed list is empty; otherwise insert every
well-formed record in order, skipping the malformed ones and keeping
what has been inserted. -/
def migrate_json_to_sql (s : MigState) : MigState :=
  match s.snapshot with
  | none => s
  | some l =>
      if db_is_empty s.db = false then s
      else if l = [] then s
      else { s with
             db := l.foldl (fun d rec => match rec with
               | none => d
               | some o => (save_order_sql d o).2) s.db }

/- ### Anti-spam cooldown and order creation
(`_create_order_for_user`, `botCom.py` lines 708-782)

Time is modelled as rationals (Python `time.time()` floats); `int(x)`
truncates toward zero. -/

def ORDER_COOLDOWN_SEC : Int := 20

/-- Python `int()` on a rational: truncation toward zero. -/
def pyInt (q : ℚ) : Int :=
  q.num.tdiv q.den

/-- Everything `_create_order_for_user` produces: the user-visible reply
(`none` when the function aborts by an uncaught exception), how many
admin order-notifications were sent, how many ledger inserts were
performed, and the resulting per-user conversation state
(`ordering`, `last`) and ledger. -/
structure CreateOut where
  reply : Option Msg
  adminNotices : Nat
  inserts : Nat
  ordering : Option Nat
  last : Option ℚ
  db : OrdersDB
  raised : Bool
deriving DecidableEq, Repr

/-- The body of `_create_order_for_user` after the cooldown gate:
`ordering` check, effective-product re-resolution, stock-zero block,
then the single `save_order_sql` insert followed by confirmation,
admin fan-out, cooldown-timestamp update and state clearing.
`insertOk = false` models `save_order_sql` raising. -/
def createOrderBody (admins : List Int) (ov : OvTable) (db : OrdersDB)
    (ordering : Option Nat) (last : Option ℚ) (uid : Int)
    (username : Option String) (now : ℚ) (contact : String)
    (insertOk : Bool) : CreateOut :=
  match ordering with
  | none => ⟨some .useCatalog, 0, 0, ordering, last, db, false⟩
  | some oil_id =>
      match get_effective_oil ov oil_id with
      | none => ⟨some .productGone, 0, 0, none, last, db, false⟩
      | some eff =>
          if eff.stock = some 0 then
            ⟨some .outOfStock, 0, 0, none, last, db, false⟩
          else if insertOk then
            let res := save_order_sql db
              ⟨uid, username, eff.name, eff.volume, eff.price, eff.currency, contact⟩
            ⟨some (.confirmed res.1), admins.length, 1, none, some now, res.2, false⟩
          else
            ⟨none, 0, 0, ordering, last, db, true⟩

/-- Embeds `_create_order_for_user` (lines 708-782): the cooldown check runs
first — `remain = ORDER_COOLDOWN_SEC - int(now - last)`, and a positive
remainder rejects the attempt before anything else is looked at. -/
def createOrder (admins : List Int) (ov : OvTable) (db : OrdersDB)
    (ordering : Option Nat) (last : Option ℚ) (uid : Int)
    (username : Option String) (now : ℚ) (contact : String)
    (insertOk : Bool) : CreateOut :=
  match last with
  | some t =>
      let remain := ORDER_COOLDOWN_SEC - pyInt (now - t)
      if 0 < remain then
        ⟨some (.cooldown remain), 0, 0, ordering, last, db, false⟩
      else
        createOrderBody admins ov db ordering last uid username now contact insertOk
  | none =>
      createOrderBody admins ov db ordering last uid username now contact insertOk

/-- Embeds `handle_message` (lines 794-800): free text is first contact-validated;
a failure is replied verbatim, success forwards the normalized text to
`_create_order_for_user`. -/
def handleMessage (admins : List Int) (ov : OvTable) (db : OrdersDB)
    (ordering : Option Nat) (last : Option ℚ) (uid : Int)
    (username : Option String) (now : ℚ) (text : String)
    (insertOk : Bool) : CreateOut :=
  match validate_contact text with
  | .err m => ⟨some m, 0, 0, ordering, last, db, false⟩
  | .ok norm => createOrder admins ov db ordering last uid username now norm insertOk

/- ### Orders page rendering (`_render_orders_page`, lines 805-866;
admin path only — the access check lives in the dispatch model below) -/

structure RenderOut where
  page : Int
  rows : List OrderRow
  total : Nat
  hasPrev : Bool
  hasNext : Bool
deriving DecidableEq, Repr

/-- Embeds `_render_orders_page` for an admin: clamp the page, fetch, normalize
past-the-end pages, and offer a previous / next button exactly when the
shown page has a predecessor / successor. -/
def renderOrdersPage (db : OrdersDB) (page : Int) : RenderOut :=
  let p := max 1 page
  let page_size : Nat := 10
  let fetched := fetch_orders_page db p page_size
  let total := fetched.2
  if total = 0 then
    ⟨p, [], 0, false, false⟩
  else
    let total_pages : Nat := (total + page_size - 1) / page_size
    let p2 : Int := if (total_pages : Int) < p then (total_pages : Int) else p
    let shown := if (total_pages : Int) < p then
        (fetch_orders_page db p2 page_size).1
      else fetched.1
    ⟨p2, shown, total, decide (1 < p2), decide (p2 < (total_pages : Int))⟩

/- ### Command dispatch (`main`, `botCom.py` lines 1164-1198)

All eight admin commands are registered with
`filters=tg_filters.User(user_id=ADMIN_IDS)`; a command from a
non-admin matches none of them and falls through to the final
`MessageHandler(filters.COMMAND, unknown_command)`, which replies with
the unknown-command message. -/

inductive Cmd where
  | start
  | catalog
  | about
  | contacts
  | cancel
  | find (query : List String)
  | orders (page : Int)
  | exportcsv
  | exportxlsx
  | stats
  | version
  | setprice (args : List String)
  | setstock (args : List String)
  | stock
deriving DecidableEq, Repr

/-- The commands registered with the admin filter. -/
def Cmd.adminOnly : Cmd → Bool
  | .orders _ => true
  | .exportcsv => true
  | .exportxlsx => true
  | .stats => true
  | .version => true
  | .setprice _ => true
  | .setstock _ => true
  | .stock => true
  | _ => false

/-- The two persistent stores reachable from command handlers. -/
structure Store where
  orders : OrdersDB
  ov : OvTable

/-- Tests membership of the joined-stripped-lowered argument in the reset keywords of
`setprice_cmd`. -/
def isResetWord (s : String) : Bool :=
  s = "reset" || s = "none" || s = "null" || s = "-"

/-- Embeds `setprice_cmd` (lines 1028-1049), reached only by admins: parse the
id, check it against the catalog, then either reset or set the price
override.  `context.args` is the whitespace-split tail of the message. -/
def setprice_cmd (st : Store) (args : List String) : Option Msg × Store :=
  if args.length < 2 then (some (.otherReply "usage_setprice"), st)
  else
    match args.head?.bind String.toInt? with
    | none => (some (.otherReply "oil_id_not_number"), st)
    | some oid =>
        if 0 ≤ oid ∧ (oils oid.toNat).isSome then
          let price_arg := pyStrip (String.intercalate " " (args.drop 1))
          if isResetWord price_arg.toLower then
            (some (.otherReply "price_reset"), { st with ov := upsert_price st.ov oid.toNat none })
          else
            (some (.otherReply "price_set"), { st with ov := upsert_price st.ov oid.toNat (some price_arg) })
        else (some (.otherReply "oil_id_unknown"), st)

/-- Embeds `setstock_cmd` (lines 1052-1080), reached only by admins. -/
def setstock_cmd (st : Store) (args : List String) : Option Msg × Store :=
  if args.length < 2 then (some (.otherReply "usage_setstock"), st)
  else
    match args.head?.bind String.toInt? with
    | none => (some (.otherReply "oil_id_not_number"), st)
    | some oid =>
        if 0 ≤ oid ∧ (oils oid.toNat).isSome then
          let qty_arg := (pyStrip ((args.drop 1).headD "")).toLower
          if qty_arg = "inf" || qty_arg = "reset" || qty_arg = "none" ||
              qty_arg = "null" || qty_arg = "-1" then
            (some (.otherReply "stock_unlimited"), { st with ov := upsert_stock st.ov oid.toNat none })
          else
            match qty_arg.toInt? with
            | some q =>
                if 0 ≤ q then
                  (some (.otherReply "stock_set"), { st with ov := upsert_stock st.ov oid.toNat (some q) })
                else (some (.otherReply "stock_bad_number"), st)
            | none => (some (.otherReply "stock_bad_number"), st)
        else (some (.otherReply "oil_id_unknown"), st)

/-- Command dispatch per `main`'s handler registration: admin commands
are guarded by the `ADMIN_IDS` user filter, a non-admin falls through
to `unknown_command`; read-only admin commands leave the stores
untouched. -/
def dispatchCmd (admins : List Int) (uid : Int) (c : Cmd) (st : Store) :
    Option Msg × Store :=
  if c.adminOnly && !(admins.contains uid) then
    (some .unknownCommand, st)
  else
    match c with
    | .setprice args => setprice_cmd st args
    | .setstock args => setstock_cmd st args
    | .orders page =>
        (some (.otherReply ("orders_page_" ++ toString (renderOrdersPage st.orders page).page)), st)
    | .exportcsv => (some (.otherReply "export_csv"), st)
    | .exportxlsx => (some (.otherReply "export_xlsx"), st)
    | .stats => (some (.otherReply "stats"), st)
    | .version => (some (.otherReply "version"), st)
    | .stock => (some (.otherReply "stock_summary"), st)
    | .start => (some (.otherReply "start"), st)
    | .catalog => (some (.otherReply "catalog"), st)
    | .about => (some (.otherReply "about"), st)
    | .contacts => (some (.otherReply "contacts"), st)
    | .cancel => (some (.otherReply "cancel"), st)
    | .find _ => (some (.otherReply "find"), st)

/- ### Anchoring characterization of the contact regex

The executable matcher strips the input; these lemmas relate it to the
declarative reading of `^\s* (...) \s*$`: an arbitrary split into
leading whitespace, a core alternative, and trailing whitespace. -/

/-- A list consisting entirely of Python whitespace. -/
def SpaceList (l : List Char) : Prop := ∀ c ∈ l, isPySpace c = true

/-- Declarative reading of a successful `PHONE_RE.match`: the whole
text splits as whitespace, one of the three alternatives, whitespace. -/
def RegexMatch (s : String) : Prop :=
  ∃ w1 core w2, s.toList = w1 ++ core ++ w2 ∧ SpaceList w1 ∧ SpaceList w2 ∧
    contactCore core = true

/-- A non-empty list whose first and last characters are not whitespace. -/
def NonSpaceEnds (l : List Char) : Prop :=
  (∃ c t, l = c :: t ∧ isPySpace c = false) ∧
  (∃ c t, l.reverse = c :: t ∧ isPySpace c = false)

lemma isPySpace_cases {c : Char} (h : isPySpace c = true) :
    c = ' ' ∨ c = '\t' ∨ c = '\n' ∨ c = '\r' ∨ c = '\x0b' ∨ c = '\x0c' := by
  have h2 := h
  simp only [isPySpace, Bool.or_eq_true, decide_eq_true_eq] at h2
  tauto

lemma not_space_of_digit {c : Char} (h : c.isDigit = true) : isPySpace c = false := by
  cases hc : isPySpace c with
  | false => rfl
  | true =>
      rcases isPySpace_cases hc with rfl | rfl | rfl | rfl | rfl | rfl <;>
        exact absurd h (by decide)

lemma not_space_of_wordChar {c : Char} (h : isWordChar c = true) : isPySpace c = false := by
  cases hc : isPySpace c with
  | false => rfl
  | true =>
      rcases isPySpace_cases hc with rfl | rfl | rfl | rfl | rfl | rfl <;>
        exact absurd h (by decide)

lemma optDigit_eq_some {o : Option Char} (h : optDigit o = true) :
    ∃ c, o = some c ∧ c.isDigit = true := by
  cases o with
  | none => exact absurd h (by decide)
  | some c => exact ⟨c, rfl, h⟩

lemma getLast_reverse_cons {t : List Char} {c : Char}
    (hc : t.getLast? = some c) :
    ∃ r, t.reverse = c :: r ∧ c ∈ t := by
  have hrev : t.reverse.head? = some c := by rw [List.head?_reverse]; exact hc
  cases htr : t.reverse with
  | nil => rw [htr] at hrev; exact absurd hrev (by simp)
  | cons b r =>
      rw [htr] at hrev
      have hb : b = c := by simpa using hrev
      subst hb
      refine ⟨r, rfl, ?_⟩
      have hm : b ∈ t.reverse := by rw [htr]; simp
      simpa using hm

lemma phoneCore_nonSpaceEnds {cs : List Char} (h : phoneCore cs = true) :
    NonSpaceEnds cs := by
  cases cs with
  | nil => exact absurd h (by decide)
  | cons a t =>
      by_cases ha : a = '+'
      · subst ha
        simp only [phoneCore, List.head?_cons, List.tail_cons, if_pos,
          Bool.and_eq_true, decide_eq_true_eq] at h
        obtain ⟨⟨⟨hlen, hhead⟩, hlast⟩, -⟩ := h
        obtain ⟨c, hc, hcd⟩ := optDigit_eq_some hlast
        obtain ⟨r, hr, -⟩ := getLast_reverse_cons hc
        refine ⟨⟨'+', t, rfl, by decide⟩,
                ⟨c, r ++ ['+'], ?_, not_space_of_digit hcd⟩⟩
        simp [hr]
      · have hne : ((a :: t).head? = some '+') = False := by simp [ha]
        simp only [phoneCore, hne, if_false, Bool.and_eq_true, decide_eq_true_eq] at h
        obtain ⟨⟨⟨hlen, hhead⟩, hlast⟩, -⟩ := h
        obtain ⟨c, hc, hcd⟩ := optDigit_eq_some hhead
        obtain ⟨d, hd, hdd⟩ := optDigit_eq_some hlast
        obtain ⟨r, hr, -⟩ := getLast_reverse_cons hd
        have hac : a = c := by
          have : (a :: t).head? = some c := hc
          simpa using this
        subst hac
        exact ⟨⟨a, t, rfl, not_space_of_digit hcd⟩,
               ⟨d, r, hr, not_space_of_digit hdd⟩⟩

lemma handleCore_nonSpaceEnds {cs : List Char} (h : handleCore cs = true) :
    NonSpaceEnds cs := by
  cases cs with
  | nil => exact absurd h (by decide)
  | cons a t =>
      by_cases ha : a = '@'
      · subst ha
        simp only [handleCore, List.head?_cons, List.tail_cons, if_pos,
          Bool.and_eq_true, decide_eq_true_eq, List.all_eq_true] at h
        obtain ⟨hlen, hall⟩ := h
        have htne : t ≠ [] := by
          intro hnil; rw [hnil] at hlen; simp at hlen
        have hlast : ∃ c, t.getLast? = some c := by
          cases hg : t.getLast? with
          | none => exact absurd (List.getLast?_eq_none_iff.mp hg) htne
          | some c => exact ⟨c, rfl⟩
        obtain ⟨c, hc⟩ := hlast
        obtain ⟨r, hr, hmem⟩ := getLast_reverse_cons hc
        have hcw : isWordChar c = true := hall c hmem
        refine ⟨⟨'@', t, rfl, by decide⟩,
                ⟨c, r ++ ['@'], ?_, not_space_of_wordChar hcw⟩⟩
        simp [hr]
      · have hne : ((a :: t).head? = some '@') = False := by simp [ha]
        simp only [handleCore, hne, if_false] at h
        exact absurd h (by decide)

lemma tmeTail_nonSpaceEnds (c0 : Char) (p0 : List Char) {pre cs : List Char}
    (hpre : pre = c0 :: p0) (hc0 : isPySpace c0 = false)
    (h : tmeTail pre cs = true) : NonSpaceEnds cs := by
  have h2 := h
  simp only [tmeTail, Bool.and_eq_true, decide_eq_true_eq, List.all_eq_true] at h2
  obtain ⟨⟨hp, hlt⟩, hall⟩ := h2
  have hpfx : pre <+: cs := by
    have := hp
    rwa [List.isPrefixOf_iff_prefix] at this
  have hcs : pre ++ cs.drop pre.length = cs := List.prefix_iff_eq_append.mp hpfx
  have hrne : cs.drop pre.length ≠ [] := by
    intro hnil
    have hlen : cs.length = pre.length := by
      conv_lhs => rw [← hcs]
      simp [hnil]
    omega
  have hlastex : ∃ c, (cs.drop pre.length).getLast? = some c := by
    cases hg : (cs.drop pre.length).getLast? with
    | none => exact absurd (List.getLast?_eq_none_iff.mp hg) hrne
    | some c => exact ⟨c, rfl⟩
  obtain ⟨c, hc⟩ := hlastex
  obtain ⟨r, hr, hmem⟩ := getLast_reverse_cons hc
  have hcw : isWordChar c = true := hall c hmem
  constructor
  · refine ⟨c0, p0 ++ cs.drop pre.length, ?_, hc0⟩
    rw [← hcs, hpre]; simp
  · refine ⟨c, r ++ pre.reverse, ?_, not_space_of_wordChar hcw⟩
    rw [← hcs]
    simp [hr]

lemma contactCore_nonSpaceEnds {cs : List Char} (h : contactCore cs = true) :
    NonSpaceEnds cs := by
  have h2 : phoneCore cs = true ∨ handleCore cs = true ∨
      tmeTail "http://t.me/".toList cs = true ∨
      tmeTail "https://t.me/".toList cs = true := by
    have h3 := h
    simp only [contactCore, tmeCore, Bool.or_eq_true] at h3
    tauto
  rcases h2 with hp | hh | h1 | h1
  · exact phoneCore_nonSpaceEnds hp
  · exact handleCore_nonSpaceEnds hh
  · exact tmeTail_nonSpaceEnds 'h' "ttp://t.me/".toList (by decide) (by decide) h1
  · exact tmeTail_nonSpaceEnds 'h' "ttps://t.me/".toList (by decide) (by decide) h1

lemma dropWhile_spaces_append (w l : List Char) (h : SpaceList w) :
    (w ++ l).dropWhile isPySpace = l.dropWhile isPySpace := by
  induction w with
  | nil => rfl
  | cons a t ih =>
      have ha : isPySpace a = true := h a (by simp)
      have ht : SpaceList t := fun c hc => h c (by simp [hc])
      simp only [List.cons_append, List.dropWhile_cons_of_pos ha]
      exact ih ht

lemma stripChars_sandwich {w1 core w2 : List Char} (h1 : SpaceList w1)
    (h2 : SpaceList w2) (hc : NonSpaceEnds core) :
    stripChars (w1 ++ core ++ w2) = core := by
  obtain ⟨⟨a, t, rfl, ha⟩, ⟨b, r, hrev, hb⟩⟩ := hc
  have step1 : (w1 ++ (a :: t) ++ w2).dropWhile isPySpace = (a :: t) ++ w2 := by
    rw [List.append_assoc, dropWhile_spaces_append _ _ h1, List.cons_append,
      List.dropWhile_cons_of_neg (show ¬ isPySpace a = true by simp [ha])]
  have h2r : SpaceList w2.reverse := fun c hc => h2 c (by simpa using hc)
  unfold stripChars
  rw [step1, List.reverse_append, dropWhile_spaces_append _ _ h2r, hrev,
      List.dropWhile_cons_of_neg (show ¬ isPySpace b = true by simp [hb]), ← hrev]
  simp

lemma pyMatch_of_regexMatch {s : String} (h : RegexMatch s) : pyMatch s = true := by
  obtain ⟨w1, core, w2, hdecomp, h1, h2, hcore⟩ := h
  have hns : NonSpaceEnds core := contactCore_nonSpaceEnds hcore
  unfold pyMatch
  rw [hdecomp, stripChars_sandwich h1 h2 hns]
  exact hcore

lemma regexMatch_of_pyMatch {s : String} (h : pyMatch s = true) : RegexMatch s := by
  refine ⟨s.toList.takeWhile isPySpace, stripChars s.toList,
    ((s.toList.dropWhile isPySpace).reverse.takeWhile isPySpace).reverse, ?_, ?_, ?_, h⟩
  · have hd : s.toList.dropWhile isPySpace
        = stripChars s.toList
          ++ ((s.toList.dropWhile isPySpace).reverse.takeWhile isPySpace).reverse :=
      calc s.toList.dropWhile isPySpace
          = ((s.toList.dropWhile isPySpace).reverse).reverse := (List.reverse_reverse _).symm
        _ = ((s.toList.dropWhile isPySpace).reverse.takeWhile isPySpace
              ++ (s.toList.dropWhile isPySpace).reverse.dropWhile isPySpace).reverse := by
              rw [List.takeWhile_append_dropWhile]
        _ = ((s.toList.dropWhile isPySpace).reverse.dropWhile isPySpace).reverse
              ++ ((s.toList.dropWhile isPySpace).reverse.takeWhile isPySpace).reverse := by
              rw [List.reverse_append]
        _ = _ := rfl
    conv_lhs => rw [← List.takeWhile_append_dropWhile isPySpace s.toList, hd]
    exact (List.append_assoc _ _ _).symm
  · exact fun c hc => List.mem_takeWhile_imp hc
  · exact fun c hc => List.mem_takeWhile_imp (by simpa using hc)

theorem regexMatch_iff_pyMatch (s : String) : RegexMatch s ↔ pyMatch s = true :=
  ⟨pyMatch_of_regexMatch, regexMatch_of_pyMatch⟩

/- ### Helper lemmas: truncation, sorting, migration fold, workflow -/

lemma pyInt_eq_floor {q : ℚ} (h : 0 ≤ q) : pyInt q = ⌊q⌋ := by
  unfold pyInt
  rw [Int.tdiv_eq_ediv (Rat.num_nonneg.mpr h) (by positivity), Rat.floor_def]

lemma insertDesc_append {r : OrderRow} : ∀ {l : List OrderRow},
    (∀ x ∈ l, r.id < x.id) → insertDesc r l = l ++ [r]
  | [], _ => rfl
  | x :: xs, h => by
      have hx : r.id < x.id := h x (by simp)
      have hxs : ∀ y ∈ xs, r.id < y.id := fun y hy => h y (by simp [hy])
      simp only [insertDesc, if_neg (by omega : ¬ x.id ≤ r.id)]
      rw [insertDesc_append hxs]
      simp

lemma sortDesc_eq_reverse : ∀ {l : List OrderRow},
    List.Pairwise (fun a b => a.id < b.id) l → sortDesc l = l.reverse
  | [], _ => rfl
  | a :: t, h => by
      obtain ⟨ha, ht⟩ := List.pairwise_cons.mp h
      have hstep : sortDesc (a :: t) = insertDesc a (sortDesc t) := rfl
      rw [hstep, sortDesc_eq_reverse ht,
        insertDesc_append (fun x hx => ha x (by simpa using hx))]
      simp

/-- Fold description of the migration: the inserted rows carry exactly
the well-formed snapshot records, in order. -/
lemma migrate_foldl_fields : ∀ (l : List (Option OrderFields)) (d : OrdersDB),
    ((l.foldl (fun d rec => match rec with
        | none => d
        | some o => (save_order_sql d o).2) d).rows).map OrderRow.fields
      = d.rows.map OrderRow.fields ++ l.reduceOption
  | [], d => by simp [List.reduceOption]
  | none :: t, d => by
      rw [List.foldl_cons]
      rw [migrate_foldl_fields t d]
      simp [List.reduceOption]
  | some o :: t, d => by
      rw [List.foldl_cons]
      rw [migrate_foldl_fields t ((save_order_sql d o).2)]
      simp [save_order_sql, List.reduceOption]

lemma createOrderBody_not_cooldown (admins : List Int) (ov : OvTable)
    (db : OrdersDB) (ordering : Option Nat) (last : Option ℚ) (uid : Int)
    (username : Option String) (now : ℚ) (contact : String) (insertOk : Bool)
    (r : Int) :
    (createOrderBody admins ov db ordering last uid username now contact
      insertOk).reply ≠ some (.cooldown r) := by
  unfold createOrderBody
  rcases ordering with _ | oil_id
  · simp
  · cases hget : get_effective_oil ov oil_id with
    | none => simp [hget]
    | some eff =>
        by_cases hst : eff.stock = some 0
        · simp [hget, hst]
        · cases insertOk with
          | false => simp [hget, hst]
          | true => simp [hget, hst]

lemma createOrderBody_last_update (admins : List Int) (ov : OvTable)
    (db : OrdersDB) (ordering : Option Nat) (last : Option ℚ) (uid : Int)
    (username : Option String) (now : ℚ) (contact : String) (insertOk : Bool) :
    (createOrderBody admins ov db ordering last uid username now contact
      insertOk).last = last ∨
    (∃ c, (createOrderBody admins ov db ordering last uid username now contact
      insertOk).reply = some (.confirmed c) ∧
      (createOrderBody admins ov db ordering last uid username now contact
        insertOk).last = some now) := by
  unfold createOrderBody
  rcases ordering with _ | oil_id
  · simp
  · cases hget : get_effective_oil ov oil_id with
    | none => simp [hget]
    | some eff =>
        by_cases hst : eff.stock = some 0
        · simp [hget, hst]
        · cases insertOk with
          | false => simp [hget, hst]
          | true => simp [hget, hst]

/-- Invariant of the override table maintained by the admin command
handlers: a stored price override is never blank after stripping (the
handler stores the stripped join of non-empty, whitespace-free argument
tokens, or `None`). -/
def WellFormedOv (t : OvTable) : Prop :=
  ∀ i r p, t i = some r → r.price = some p → pyStrip p ≠ ""

/-- Tokens produced by Python `str.split()`: non-empty and containing
no whitespace. -/
def SplitToken (s : String) : Prop :=
  s ≠ "" ∧ ∀ c ∈ s.toList, isPySpace c = false

lemma stripChars_of_no_space {l : List Char} (h : ∀ c ∈ l, isPySpace c = false) :
    stripChars l = l := by
  cases l with
  | nil => rfl
  | cons a t =>
      have hns : NonSpaceEnds (a :: t) := by
        constructor
        · exact ⟨a, t, rfl, h a (by simp)⟩
        · obtain ⟨c, hc⟩ : ∃ c, (a :: t).getLast? = some c := by
            cases hg : (a :: t).getLast? with
            | none => exact absurd (List.getLast?_eq_none_iff.mp hg) (by simp)
            | some c => exact ⟨c, rfl⟩
          obtain ⟨r, hr, hmem⟩ := getLast_reverse_cons hc
          exact ⟨c, r, hr, h c hmem⟩
      have hs := @stripChars_sandwich [] (a :: t) []
        (fun c hc => absurd hc (by simp)) (fun c hc => absurd hc (by simp)) hns
      simpa using hs

/- ### Concrete stores used by witnesses -/

/-- The empty override table. -/
def emptyOv : OvTable := fun _ => none

/-- An override table with a price and stock override on product 3. -/
def ovSample : OvTable := fun j => if j = 3 then some ⟨some "1990", some 5⟩ else none

/-- An override table marking product 3 out of stock. -/
def ovStock0 : OvTable := fun j => if j = 3 then some ⟨none, some 0⟩ else none

lemma ovSample_wf : WellFormedOv ovSample := by
  intro i r p hr hp
  by_cases hi : i = 3
  · subst hi
    have hr2 : r = ⟨some "1990", some 5⟩ := by
      simpa [ovSample] using hr.symm
    subst hr2
    have hp2 : p = "1990" := by simpa using hp.symm
    subst hp2
    decide
  · simp [ovSample, hi] at hr

/-- The cooldown gate does not fire: either no previous success, or the
window has fully elapsed. -/
def CooldownOk (last : Option ℚ) (now : ℚ) : Prop :=
  ∀ t, last = some t → ORDER_COOLDOWN_SEC - pyInt (now - t) ≤ 0

/-- Reduction of `createOrder` when there is no previous success. -/
lemma createOrder_none (admins : List Int) (ov : OvTable) (db : OrdersDB)
    (ordering : Option Nat) (uid : Int) (username : Option String) (now : ℚ)
    (contact : String) (insertOk : Bool) :
    createOrder admins ov db ordering none uid username now contact insertOk
      = createOrderBody admins ov db ordering none uid username now contact
          insertOk := rfl

/-- Reduction of `createOrder` when there is a previous success at `t0`. -/
lemma createOrder_some (admins : List Int) (ov : OvTable) (db : OrdersDB)
    (ordering : Option Nat) (t0 : ℚ) (uid : Int) (username : Option String)
    (now : ℚ) (contact : String) (insertOk : Bool) :
    createOrder admins ov db ordering (some t0) uid username now contact insertOk
      = if 0 < ORDER_COOLDOWN_SEC - pyInt (now - t0) then
          ⟨some (.cooldown (ORDER_COOLDOWN_SEC - pyInt (now - t0))), 0, 0,
            ordering, some t0, db, false⟩
        else createOrderBody admins ov db ordering (some t0) uid username now
          contact insertOk := rfl

/- ### Claim theorems -/

/-- C6: `get_effective_oil id` is absent exactly when `id` is not in the
static catalog; otherwise it is a copy of the static record whose price
is the override price when one is set and the catalog price otherwise,
and whose stock is the stored stock override (absent = unlimited).  The
hypothesis is the invariant that stored price overrides are non-blank,
which is what the only writer (`setprice_cmd`) produces; the static
`oils` table is a constant and is not modified. -/
theorem C6_get_effective_oil_spec (t : OvTable) (i : Nat) (hwf : WellFormedOv t) :
    (get_effective_oil t i = none ↔ oils i = none) ∧
    (∀ b, oils i = some b →
      get_effective_oil t i = some
        { name := b.name, volume := b.volume,
          price := ((get_override t i).1).getD b.price,
          currency := b.currency,
          stock := (get_override t i).2 }) := by
  constructor
  · cases hb : oils i with
    | none => simp [get_effective_oil, hb]
    | some b => simp [get_effective_oil, hb]
  · intro b hb
    cases hr : t i with
    | none => simp [get_effective_oil, hb, get_override, hr]
    | some r =>
        cases hp : r.price with
        | none => simp [get_effective_oil, hb, get_override, hr, hp]
        | some p =>
            have hnb : pyStrip p ≠ "" := hwf i r p hr hp
            simp [get_effective_oil, hb, get_override, hr, hp, hnb]

/-- Witness for C6 at product 3 with a price and stock override. -/
theorem C6_get_effective_oil_spec_witness :
    get_effective_oil ovSample 3 = some
      { name := "Масло редукторное BYD BOT384", volume := "1 Л",
        price := "1990", currency := "₽", stock := some 5 } := by
  have h := (C6_get_effective_oil_spec ovSample 3 ovSample_wf).2
    ⟨"Масло редукторное BYD BOT384", "1 Л", "1400", "₽"⟩ rfl
  simpa [get_override, ovSample] using h

/-- C9: `upsert_price` touches only the price column of row `oil_id`
(its stock and all other rows are unchanged), and symmetrically
`upsert_stock` touches only the stock column. -/
theorem C9_upsert_frame (t : OvTable) (i j : Nat) (p : Option String)
    (st : Option Int) :
    (j ≠ i → upsert_price t i p j = t j ∧ upsert_stock t i st j = t j) ∧
    (get_override (upsert_price t i p) i).1 = p ∧
    (get_override (upsert_price t i p) i).2 = (get_override t i).2 ∧
    (get_override (upsert_stock t i st) i).2 = st ∧
    (get_override (upsert_stock t i st) i).1 = (get_override t i).1 := by
  refine ⟨fun hj => ⟨?_, ?_⟩, ?_, ?_, ?_, ?_⟩
  · simp [upsert_price, hj]
  · simp [upsert_stock, hj]
  · simp [upsert_price, get_override]
  · simp [upsert_price, get_override]
  · simp [upsert_stock, get_override]
  · simp [upsert_stock, get_override]

/-- Witness for C9 at rows 3 and 5 of a concrete table. -/
theorem C9_upsert_frame_witness :
    upsert_price ovSample 3 (some "2500") 5 = ovSample 5 ∧
    (get_override (upsert_price ovSample 3 (some "2500")) 3).1 = some "2500" ∧
    (get_override (upsert_price ovSample 3 (some "2500")) 3).2
      = (get_override ovSample 3).2 := by
  have h := C9_upsert_frame ovSample 3 5 (some "2500") none
  exact ⟨(h.1 (by decide)).1, h.2.1, h.2.2.1⟩

/-- C10: a contact submission that re-resolves the product to stock
exactly 0 aborts with the out-of-stock message, performs no insert,
does not update the cooldown timestamp, and clears the selected
product, returning the conversation to Idle. -/
theorem C10_out_of_stock_abort (admins : List Int) (ov : OvTable)
    (db : OrdersDB) (p : Nat) (last : Option ℚ) (uid : Int)
    (username : Option String) (now : ℚ) (contact : String) (insertOk : Bool)
    (eff : EffOil) (hcd : CooldownOk last now)
    (hget : get_effective_oil ov p = some eff) (hst : eff.stock = some 0) :
    createOrder admins ov db (some p) last uid username now contact insertOk
      = ⟨some .outOfStock, 0, 0, none, last, db, false⟩ := by
  cases last with
  | none =>
      rw [createOrder_none]
      unfold createOrderBody
      simp [hget, hst]
  | some t0 =>
      have hr := hcd t0 rfl
      rw [createOrder_some, if_neg (by omega)]
      unfold createOrderBody
      simp [hget, hst]

/-- Witness for C10: product 3 with an admin-set stock of 0. -/
theorem C10_out_of_stock_abort_witness :
    createOrder [99] ovStock0 OrdersDB.empty (some 3) none 5 none 100
      "@validuser1" true
      = ⟨some .outOfStock, 0, 0, none, none, OrdersDB.empty, false⟩ :=
  C10_out_of_stock_abort [99] ovStock0 OrdersDB.empty 3 none 5 none 100
    "@validuser1" true
    ⟨"Масло редукторное BYD BOT384", "1 Л", "1400", "₽", some 0⟩
    (fun t h => nomatch h) (by decide) rfl

/-- C5 (amended): every admin-only command is gated at dispatch by the
`ADMIN_IDS` user filter; an unauthorized caller receives the uniform
unknown-command reply with no further processing, so the orders and
oil_overrides stores are unchanged.  (The reply is the unknown-command
message, not an explicit access-denied message — see the
counterexample.) -/
theorem C5_admin_gate (admins : List Int) (uid : Int) (c : Cmd) (st : Store)
    (hadmin : c.adminOnly = true) (huid : admins.contains uid = false) :
    dispatchCmd admins uid c st = (some .unknownCommand, st) := by
  have huid2 : uid ∉ admins := by simpa using huid
  unfold dispatchCmd
  simp [hadmin, huid2]

/-- Witness for C5: a non-admin caller invoking the stats command. -/
theorem C5_admin_gate_witness :
    dispatchCmd [99] 5 .stats ⟨OrdersDB.empty, emptyOv⟩
      = (some .unknownCommand, ⟨OrdersDB.empty, emptyOv⟩) :=
  C5_admin_gate [99] 5 .stats ⟨OrdersDB.empty, emptyOv⟩ rfl (by decide)

/-- Counterexample for C5 as stated: the reply a non-admin gets for an
admin command is the unknown-command message, which differs from both
access-denied texts present in the source (`⛔ Команда доступна только
администраторам.` and `⛔ У вас нет доступа. Ваш ID: ...`). -/
theorem C5_counterexample :
    (dispatchCmd [99] 5 .stats ⟨OrdersDB.empty, emptyOv⟩).1
        = some .unknownCommand ∧
    Msg.text .unknownCommand ≠ Msg.text .adminsOnly ∧
    Msg.text .unknownCommand ≠ Msg.text (.ordersNoAccess 5) :=
  ⟨rfl, by decide, by decide⟩

/-- On a confirmed reply the body has performed exactly one insert,
growing the ledger by one row. -/
lemma createOrderBody_confirmed (admins : List Int) (ov : OvTable)
    (db : OrdersDB) (ordering : Option Nat) (last : Option ℚ) (uid : Int)
    (username : Option String) (now : ℚ) (contact : String) (insertOk : Bool)
    (code : String)
    (h : (createOrderBody admins ov db ordering last uid username now contact
      insertOk).reply = some (.confirmed code)) :
    (createOrderBody admins ov db ordering last uid username now contact
      insertOk).inserts = 1 ∧
    (createOrderBody admins ov db ordering last uid username now contact
      insertOk).db.rows.length = db.rows.length + 1 := by
  unfold createOrderBody at h ⊢
  rcases ordering with _ | oil_id
  · simp at h
  · cases hget : get_effective_oil ov oil_id with
    | none => simp [hget] at h
    | some eff =>
        by_cases hst : eff.stock = some 0
        · simp [hget, hst] at h
        · cases insertOk with
          | false => simp [hget, hst] at h
          | true => simp [hget, hst, save_order_sql]

/-- C1: if the ledger insert raises during contact submission, the
workflow sends no confirmation and no admin notification, does not
record `last_order_at`, leaves the ledger unchanged, and keeps the
conversation in AwaitingContact with the selected product retained
(the exception propagates); and every completion that does reply with
a confirmation has performed exactly one ledger insert. -/
theorem C1_insert_failure_atomicity :
    (∀ (admins : List Int) (ov : OvTable) (db : OrdersDB) (p : Nat)
        (last : Option ℚ) (uid : Int) (username : Option String) (now : ℚ)
        (contact : String) (eff : EffOil),
      CooldownOk last now → get_effective_oil ov p = some eff →
      eff.stock ≠ some 0 →
      createOrder admins ov db (some p) last uid username now contact false
        = ⟨none, 0, 0, some p, last, db, true⟩) ∧
    (∀ (admins : List Int) (ov : OvTable) (db : OrdersDB)
        (ordering : Option Nat) (last : Option ℚ) (uid : Int)
        (username : Option String) (now : ℚ) (contact : String)
        (insertOk : Bool) (code : String),
      (createOrder admins ov db ordering last uid username now contact
        insertOk).reply = some (.confirmed code) →
      (createOrder admins ov db ordering last uid username now contact
        insertOk).inserts = 1 ∧
      (createOrder admins ov db ordering last uid username now contact
        insertOk).db.rows.length = db.rows.length + 1) := by
  constructor
  · intro admins ov db p last uid username now contact eff hcd hget hst
    cases last with
    | none =>
        rw [createOrder_none]
        unfold createOrderBody
        simp [hget, hst]
    | some t0 =>
        have hr := hcd t0 rfl
        rw [createOrder_some, if_neg (by omega)]
        unfold createOrderBody
        simp [hget, hst]
  · intro admins ov db ordering last uid username now contact insertOk code h
    cases last with
    | none =>
        rw [createOrder_none] at h ⊢
        exact createOrderBody_confirmed _ _ _ _ _ _ _ _ _ _ _ h
    | some t0 =>
        rw [createOrder_some] at h ⊢
        by_cases hcool : 0 < ORDER_COOLDOWN_SEC - pyInt (now - t0)
        · rw [if_pos hcool] at h
          simp at h
        · rw [if_neg hcool] at h ⊢
          exact createOrderBody_confirmed _ _ _ _ _ _ _ _ _ _ _ h

/-- Witness for C1: a failing insert with product 3 selected, no
cooldown pending, leaves everything unchanged and raises. -/
theorem C1_insert_failure_atomicity_witness :
    createOrder [99] emptyOv OrdersDB.empty (some 3) none 5 none 100
      "@validuser1" false
      = ⟨none, 0, 0, some 3, none, OrdersDB.empty, true⟩ :=
  C1_insert_failure_atomicity.1 [99] emptyOv OrdersDB.empty 3 none 5 none 100
    "@validuser1"
    ⟨"Масло редукторное BYD BOT384", "1 Л", "1400", "₽", none⟩
    (fun t h => nomatch h) rfl (by decide)

/-- C2 (amended): with a previous success at `T`, an attempt at `T + ε`
for `0 < ε < 20` is rejected with remaining time `20 - pyInt ε` (the
window minus the whole elapsed seconds, which is `W - ε` rounded UP to
the next integer for fractional `ε`, not rounded down) and no insert or
state change; an attempt with `ε ≥ 20` is never refused by the
cooldown; and `last_order_at` changes only on a confirmed order, to the
submission time. -/
theorem C2_cooldown_spec :
    (∀ (admins : List Int) (ov : OvTable) (db : OrdersDB)
        (ordering : Option Nat) (uid : Int) (username : Option String)
        (contact : String) (insertOk : Bool) (T ε : ℚ),
      0 < ε → ε < 20 →
      createOrder admins ov db ordering (some T) uid username (T + ε) contact
        insertOk
        = ⟨some (.cooldown (20 - pyInt ε)), 0, 0, ordering, some T, db,
            false⟩) ∧
    (∀ (admins : List Int) (ov : OvTable) (db : OrdersDB)
        (ordering : Option Nat) (uid : Int) (username : Option String)
        (contact : String) (insertOk : Bool) (T ε : ℚ),
      20 ≤ ε → ∀ r : Int,
      (createOrder admins ov db ordering (some T) uid username (T + ε) contact
        insertOk).reply ≠ some (.cooldown r)) ∧
    (∀ (admins : List Int) (ov : OvTable) (db : OrdersDB)
        (ordering : Option Nat) (last : Option ℚ) (uid : Int)
        (username : Option String) (now : ℚ) (contact : String)
        (insertOk : Bool),
      (createOrder admins ov db ordering last uid username now contact
        insertOk).last = last ∨
      ∃ c, (createOrder admins ov db ordering last uid username now contact
          insertOk).reply = some (.confirmed c) ∧
        (createOrder admins ov db ordering last uid username now contact
          insertOk).last = some now) := by
  refine ⟨?_, ?_, ?_⟩
  · intro admins ov db ordering uid username contact insertOk T ε h0 h20
    have hdiff : T + ε - T = ε := by ring
    have hfl : pyInt ε = ⌊ε⌋ := pyInt_eq_floor (le_of_lt h0)
    have hlt : ⌊ε⌋ < 20 := by
      rw [Int.floor_lt]
      push_cast
      exact h20
    rw [createOrder_some, hdiff, if_pos (by rw [hfl]; unfold ORDER_COOLDOWN_SEC; omega)]
    simp [ORDER_COOLDOWN_SEC]
  · intro admins ov db ordering uid username contact insertOk T ε h20 r
    have hdiff : T + ε - T = ε := by ring
    have hfl : pyInt ε = ⌊ε⌋ := pyInt_eq_floor (le_trans (by norm_num) h20)
    have hge : (20 : Int) ≤ ⌊ε⌋ := by
      rw [Int.le_floor]
      push_cast
      exact h20
    rw [createOrder_some, hdiff, if_neg (by rw [hfl]; unfold ORDER_COOLDOWN_SEC; omega)]
    exact createOrderBody_not_cooldown _ _ _ _ _ _ _ _ _ _ r
  · intro admins ov db ordering last uid username now contact insertOk
    cases last with
    | none =>
        rw [createOrder_none]
        exact createOrderBody_last_update _ _ _ _ _ _ _ _ _ _
    | some t0 =>
        rw [createOrder_some]
        by_cases hcool : 0 < ORDER_COOLDOWN_SEC - pyInt (now - t0)
        · rw [if_pos hcool]
          exact Or.inl rfl
        · rw [if_neg hcool]
          exact createOrderBody_last_update _ _ _ _ _ _ _ _ _ _

/-- Witness for C2: an attempt 5 seconds into the window is rejected
with 15 seconds remaining. -/
theorem C2_cooldown_spec_witness :
    createOrder [99] emptyOv OrdersDB.empty (some 3) (some 100) 5 none
      (100 + 5) "@validuser1" true
      = ⟨some (.cooldown (20 - pyInt 5)), 0, 0, some 3, some 100,
          OrdersDB.empty, false⟩ :=
  C2_cooldown_spec.1 [99] emptyOv OrdersDB.empty (some 3) 5 none
    "@validuser1" true 100 5 (by norm_num) (by norm_num)

/-- Counterexample for C2 as stated: half a second after a success the
code reports 20 seconds remaining, but `W - ε` rounded down is 19. -/
theorem C2_counterexample :
    (createOrder [] emptyOv OrdersDB.empty (some 3) (some 0) 5 none
      ((1 : ℚ)/2) "@validuser1" true).reply = some (.cooldown 20) ∧
    (20 : Int) ≠ ⌊(20 : ℚ) - 1/2⌋ := by
  constructor
  · rw [createOrder_some]
    have h0 : pyInt ((1 : ℚ)/2 - 0) = 0 := by
      rw [sub_zero, pyInt_eq_floor (by norm_num)]
      norm_num
    rw [h0]
    rfl
  · have h : ⌊(20 : ℚ) - 1/2⌋ = 19 := by norm_num
    omega

/-- C4 (amended): for a user in Idle (no selected product), free text is
still contact-validated first and the cooldown is still checked before
the no-active-order reply: invalid text gets the validation error;
valid text inside a pending cooldown gets the cooldown rejection;
otherwise the user is prompted to use the catalog.  In all three cases
nothing is inserted, no admin is notified, and the conversation state,
cooldown timestamp and ledger are unchanged. -/
theorem C4_idle_input_spec (admins : List Int) (ov : OvTable) (db : OrdersDB)
    (last : Option ℚ) (uid : Int) (username : Option String) (now : ℚ)
    (text : String) (insertOk : Bool) :
    ((handleMessage admins ov db none last uid username now text insertOk).db
        = db ∧
      (handleMessage admins ov db none last uid username now text
        insertOk).ordering = none ∧
      (handleMessage admins ov db none last uid username now text
        insertOk).last = last ∧
      (handleMessage admins ov db none last uid username now text
        insertOk).inserts = 0 ∧
      (handleMessage admins ov db none last uid username now text
        insertOk).adminNotices = 0) ∧
    (∀ m, validate_contact text = .err m →
      (handleMessage admins ov db none last uid username now text
        insertOk).reply = some m) ∧
    (∀ norm, validate_contact text = .ok norm → CooldownOk last now →
      (handleMessage admins ov db none last uid username now text
        insertOk).reply = some .useCatalog) ∧
    (∀ norm T, validate_contact text = .ok norm → last = some T →
      0 < ORDER_COOLDOWN_SEC - pyInt (now - T) →
      (handleMessage admins ov db none last uid username now text
        insertOk).reply
        = some (.cooldown (ORDER_COOLDOWN_SEC - pyInt (now - T)))) := by
  refine ⟨?_, ?_, ?_, ?_⟩
  · cases hv : validate_contact text with
    | err m => simp [handleMessage, hv]
    | ok norm =>
        cases last with
        | none =>
            simp only [handleMessage, hv]
            rw [createOrder_none]
            unfold createOrderBody
            simp
        | some t0 =>
            by_cases hcool : 0 < ORDER_COOLDOWN_SEC - pyInt (now - t0)
            · simp only [handleMessage, hv]
              rw [createOrder_some, if_pos hcool]
              simp
            · simp only [handleMessage, hv]
              rw [createOrder_some, if_neg hcool]
              unfold createOrderBody
              simp
  · intro m hv
    simp [handleMessage, hv]
  · intro norm hv hcd
    cases last with
    | none =>
        simp only [handleMessage, hv]
        rw [createOrder_none]
        unfold createOrderBody
        simp
    | some t0 =>
        have hr := hcd t0 rfl
        simp only [handleMessage, hv]
        rw [createOrder_some,
          if_neg (by omega : ¬ 0 < ORDER_COOLDOWN_SEC - pyInt (now - t0))]
        unfold createOrderBody
        simp
  · intro norm T hv hlast hcool
    subst hlast
    simp only [handleMessage, hv]
    rw [createOrder_some, if_pos hcool]

/-- Witness for C4: an idle user with no pending cooldown sending a
valid handle is prompted to use the catalog. -/
theorem C4_idle_input_spec_witness :
    (handleMessage [99] emptyOv OrdersDB.empty none none 5 none 100
      "@username" true).reply = some .useCatalog :=
  (C4_idle_input_spec [99] emptyOv OrdersDB.empty none 5 none 100
    "@username" true).2.2.1 "@username" (by decide) (fun t h => nomatch h)

/-- Counterexample for C4 as stated: an idle user sending the free text
`hello` receives the contact-validation error, not the prompt to start
catalog browsing. -/
theorem C4_counterexample :
    (handleMessage [99] emptyOv OrdersDB.empty none none 5 none 0 "hello"
      true).reply = some .validationBad ∧
    Msg.validationBad ≠ Msg.useCatalog := ⟨by decide, by decide⟩

/-- The migration never touches the snapshot. -/
lemma migrate_snapshot (s : MigState) :
    (migrate_json_to_sql s).snapshot = s.snapshot := by
  unfold migrate_json_to_sql
  cases hs : s.snapshot with
  | none => simpa using hs
  | some l =>
      by_cases he : db_is_empty s.db = false
      · simpa [he] using hs
      · by_cases hl : l = [] <;> simp [he, hl, hs]

/-- A non-empty ledger makes the migration a no-op. -/
lemma migrate_nonempty_noop (s : MigState) (h : s.db.rows ≠ []) :
    migrate_json_to_sql s = s := by
  unfold migrate_json_to_sql
  cases hs : s.snapshot with
  | none => rfl
  | some l =>
      have he : db_is_empty s.db = false := by
        unfold db_is_empty
        simpa using h
      simp [he]

/-- C7: running the legacy-snapshot migration twice equals running it
once, provided the ledger is non-empty after the first run; the
migration copies only when the ledger is empty and a parsed snapshot
exists; and it inserts exactly the well-formed snapshot records, in
order, skipping malformed ones without rolling anything back. -/
theorem C7_migration_idempotent :
    (∀ s : MigState, (migrate_json_to_sql s).db.rows ≠ [] →
      migrate_json_to_sql (migrate_json_to_sql s) = migrate_json_to_sql s) ∧
    (∀ s : MigState, s.db.rows ≠ [] → migrate_json_to_sql s = s) ∧
    (∀ s : MigState, s.snapshot = none → migrate_json_to_sql s = s) ∧
    (∀ (s : MigState) (l : List (Option OrderFields)),
      s.snapshot = some l → s.db.rows = [] →
      (migrate_json_to_sql s).db.rows.map OrderRow.fields = l.reduceOption) := by
  refine ⟨?_, migrate_nonempty_noop, ?_, ?_⟩
  · intro s h
    exact migrate_nonempty_noop (migrate_json_to_sql s) h
  · intro s h
    unfold migrate_json_to_sql
    rw [h]
  · intro s l hs hrows
    unfold migrate_json_to_sql
    rw [hs]
    have he : db_is_empty s.db = true := by
      unfold db_is_empty
      simp [hrows]
    rw [he]
    simp only [Bool.true_eq_false, if_false]
    by_cases hl : l = []
    · subst hl
      simp [hrows, List.reduceOption]
    · rw [if_neg hl]
      have hfold := migrate_foldl_fields l s.db
      simpa [hrows] using hfold

/-- A concrete three-record snapshot whose middle record is malformed. -/
def migSample : MigState :=
  ⟨OrdersDB.empty,
    some [some ⟨5, some "alice", "BYD EHSF-1, EHSF-2LV", "3 Л", "4400", "₽", "@contact1"⟩,
          none,
          some ⟨6, none, "Масло редукторное BYD BOT384", "1 Л", "1400", "₽", "+79001234567"⟩]⟩

/-- Witness for C7: the sample migration is idempotent and keeps the
two well-formed records. -/
theorem C7_migration_idempotent_witness :
    migrate_json_to_sql (migrate_json_to_sql migSample)
      = migrate_json_to_sql migSample :=
  C7_migration_idempotent.1 migSample (by decide)

/-- A 25-order ledger with ids 1..25 in insertion order. -/
def db25 : OrdersDB :=
  ⟨(List.range 25).map
      (fun k => ⟨k + 1, ⟨(k : Int), none, "oil", "1 Л", "100", "₽", "@buyer"⟩⟩),
    25⟩

/-- C8: `fetch_orders_page` returns the total count and the
`page_size` window at offset `(page-1)*page_size` of the newest-first
(id-descending) ordering; on a 25-order ledger, page 2 of size 10
holds ids 15 down to 6, and the rendered page offers both a previous
and a next button. -/
theorem C8_orders_pagination :
    (∀ (db : OrdersDB) (page : Int) (size : Nat),
      List.Pairwise (fun a b => a.id < b.id) db.rows →
      fetch_orders_page db page size
        = ((db.rows.reverse.drop (((max 1 page - 1).toNat) * size)).take size,
            db.rows.length)) ∧
    ((fetch_orders_page db25 2 10).1.map OrderRow.id
        = [15, 14, 13, 12, 11, 10, 9, 8, 7, 6] ∧
      (fetch_orders_page db25 2 10).2 = 25) ∧
    ((renderOrdersPage db25 2).hasPrev = true ∧
      (renderOrdersPage db25 2).hasNext = true ∧
      (renderOrdersPage db25 2).rows.map OrderRow.id
        = [15, 14, 13, 12, 11, 10, 9, 8, 7, 6]) := by
  refine ⟨?_, by decide, by decide⟩
  intro db page size h
  unfold fetch_orders_page
  rw [sortDesc_eq_reverse h]

/-- Witness for C8: page 1 of the 25-order ledger through the general
window description. -/
theorem C8_orders_pagination_witness :
    fetch_orders_page db25 1 10
      = ((db25.rows.reverse.drop (((max 1 (1 : Int) - 1).toNat) * 10)).take 10,
          db25.rows.length) :=
  C8_orders_pagination.1 db25 1 10 (by decide)

/-- Modelled from the spec's words (claim C3) for comparison with the
code: a phone-number-like string is an optional leading `+`, then 9 or
more digits possibly interspersed with spaces, hyphens and parentheses
(up to surrounding whitespace). -/
def specPhoneShape (s : String) : Bool :=
  let l := stripChars s.toList
  let d := if l.head? = some '+' then l.tail else l
  d.all (fun c => c.isDigit || c = ' ' || c = '-' || c = '(' || c = ')') &&
    decide (9 ≤ (d.filter Char.isDigit).length)

/-- Counterexample for C3 as stated: `123456789` consists of 9 digits,
so it matches the claimed phone shape, yet `validate_contact` rejects
it (the regex requires at least 10 characters in the body, not 9
digits). -/
theorem C3_counterexample :
    specPhoneShape "123456789" = true ∧
    validate_contact "123456789" = .err .validationBad := by decide

/-- C3 (amended): `validate_contact` returns success with the trimmed
original text exactly when the input, up to surrounding whitespace,
fully matches one of: an optional leading `+` then a digit, then 8 or
more characters drawn from digits/spaces/hyphens/parentheses, ending
with a digit (so at least 10 characters, but not necessarily 9
digits); `@` followed by 5 or more word characters; or an
`http://t.me/` or `https://t.me/` URL with a nonempty word-character
handle.  Every other non-empty string is rejected with the
example-based error, the empty string with a distinct error; matching
is anchored (the whole text decomposes as whitespace, core,
whitespace) and normalization is whitespace trimming only. -/
theorem C3_validate_contact_spec (t : String) :
    (∀ r, validate_contact t = .ok r ↔ (RegexMatch t ∧ r = pyStrip t)) ∧
    (validate_contact t = .err .validationEmpty ↔ t = "") ∧
    (validate_contact t = .err .validationBad ↔ (t ≠ "" ∧ ¬ RegexMatch t)) ∧
    Msg.validationEmpty ≠ Msg.validationBad := by
  have hiff := regexMatch_iff_pyMatch t
  refine ⟨?_, ?_, ?_, by decide⟩
  · intro r
    by_cases ht : t = ""
    · subst ht
      simp [validate_contact, hiff, show pyMatch "" = false from rfl]
    · by_cases hm : pyMatch t
      · simp [validate_contact, ht, hm, hiff, eq_comm]
      · simp [validate_contact, ht, hm, hiff]
  · by_cases ht : t = ""
    · subst ht
      simp [validate_contact]
    · by_cases hm : pyMatch t <;> simp [validate_contact, ht, hm]
  · by_cases ht : t = ""
    · subst ht
      simp [validate_contact]
    · by_cases hm : pyMatch t <;> simp [validate_contact, ht, hm, hiff]

/-- Witness for C3: a handle surrounded by whitespace is accepted and
trimmed. -/
theorem C3_validate_contact_spec_witness :
    validate_contact "  @username " = .ok "@username" :=
  ((C3_validate_contact_spec "  @username ").1 "@username").mpr
    ⟨regexMatch_of_pyMatch (by decide), by decide⟩

end OilBot
